import Mathlib

/-!
Verification of the analysis-record versioning engine of the
`dish_healthiness_prod` backend.

The Python source stores each food-analysis record's evolving result in a
semi-structured JSON column (`result_gemini`).  We embed JSON values as an
inductive type, Python `dict`s as association lists in insertion order
(Python ≥ 3.7 dicts preserve insertion order, and assigning to an existing
key keeps its position), and the CRUD functions of
`src/backend/src/crud/dish_query_iterations.py`,
`src/backend/src/crud/dish_query_filters.py`,
`src/backend/src/api/item_tasks.py` and the pydantic validation bounds of
`src/backend/src/api/item_schemas.py` / `src/backend/src/schemas.py`
as pure Lean functions on these values.

JSON numbers are embedded as rationals: the only numeric values the claims
touch are small integers (iteration counters) and short decimal literals
(serving-count bounds), on which rational comparison agrees with Python
float comparison.
-/

namespace DishProd

/-- A JSON value.  Python `dict`s become `obj` with entries in insertion
order; `None` becomes `null`. -/
inductive Json where
  | null : Json
  | bool : Bool → Json
  | num : ℚ → Json
  | str : String → Json
  | arr : List Json → Json
  | obj : List (String × Json) → Json

/-- A Python dict with string keys: an association list in insertion order. -/
abbrev JObj := List (String × Json)

/-- `d.get(k)` / `d[k]`: first (and in well-formed dicts only) binding of `k`. -/
def getKey : JObj → String → Option Json
  | [], _ => none
  | (k', v) :: rest, k => if k' = k then some v else getKey rest k

/-- `d.get(k, default)`. -/
def getD (o : JObj) (k : String) (dflt : Json) : Json :=
  (getKey o k).getD dflt

/-- `k in d`. -/
def hasKey (o : JObj) (k : String) : Bool :=
  (getKey o k).isSome

/-- `d[k] = v`: replaces the value in place if the key is present
(keeping its position, as a Python dict does), otherwise appends the
binding at the end. -/
def setKey : JObj → String → Json → JObj
  | [], k, v => [(k, v)]
  | (k', v') :: rest, k, v =>
      if k' = k then (k, v) :: rest else (k', v') :: setKey rest k v

/-- `d.update(u)`: `d[k] = v` for each entry of `u` in order. -/
def updateKeys (o : JObj) (u : JObj) : JObj :=
  u.foldl (fun acc kv => setKey acc kv.1 kv.2) o

/-- Python truthiness of an optional dict-valued column:
`None` and the empty dict `{}` are falsy. -/
def truthyObj : Option JObj → Bool
  | none => false
  | some o => !o.isEmpty

/-- Extract a JSON number, with a default.  Used for
`payload.get("current_iteration", 1)`: every value the repository writes
under that key is a number, so the default branch for a non-numeric value
is never reached on payloads the code produces. -/
def numD : Option Json → ℚ → ℚ
  | some (Json.num q), _ => q
  | _, d => d

/-- Extract a JSON array, with `[]` as default.  Used for
`payload.get("iterations", [])`: every value the repository writes under
that key is an array. -/
def arrD : Option Json → List Json
  | some (Json.arr xs) => xs
  | _ => []

/-- Extract a JSON object, with `{}` as default.  Every value the
repository writes under `"metadata"` is a dict. -/
def objD : Option Json → JObj
  | some (Json.obj o) => o
  | _ => []

/-- Python `xs[i]` guarded by the source's `0 <= i < len(xs)` bounds check,
for an index obtained by JSON-number arithmetic.  The `den = 1` guard
totalises the embedding: Python list indexing requires an integer, and
every index the repository computes is one. -/
def listAtQ (xs : List Json) (q : ℚ) : Option Json :=
  if 0 ≤ q ∧ q < xs.length ∧ q.den = 1 then xs.get? q.num.toNat else none

/-- Replace element `i` of a list by `f` applied to it (Python's in-place
mutation of `xs[i]`). -/
def listModify (xs : List Json) (i : Nat) (f : Json → Json) : List Json :=
  match xs, i with
  | [], _ => []
  | x :: rest, 0 => f x :: rest
  | x :: rest, Nat.succ j => x :: listModify rest j f

/-! ### Dictionary lemmas -/

theorem getKey_setKey_self (o : JObj) (k : String) (v : Json) :
    getKey (setKey o k v) k = some v := by
  induction o with
  | nil => simp [getKey, setKey]
  | cons kv rest ih =>
      by_cases h : kv.1 = k
      · simp [getKey, setKey, h]
      · simp [getKey, setKey, h, ih]

theorem getKey_setKey_ne (o : JObj) (k k' : String) (v : Json) (h : k' ≠ k) :
    getKey (setKey o k v) k' = getKey o k' := by
  have h' : k ≠ k' := Ne.symm h
  induction o with
  | nil => simp [getKey, setKey, h']
  | cons kv rest ih =>
      obtain ⟨k0, v0⟩ := kv
      by_cases hk : k0 = k
      · subst hk
        simp [getKey, setKey, h']
      · simp [getKey, setKey, hk, ih]

theorem setKey_eq_of_getKey (o : JObj) (k : String) (v : Json)
    (h : getKey o k = some v) : setKey o k v = o := by
  induction o with
  | nil => simp [getKey] at h
  | cons kv rest ih =>
      by_cases hk : kv.1 = k
      · obtain ⟨k0, v0⟩ := kv
        simp only at hk
        subst hk
        simp [getKey] at h
        simp [setKey, h]
      · simp [getKey, hk] at h
        simp [setKey, hk, ih h]

theorem hasKey_setKey_self (o : JObj) (k : String) (v : Json) :
    hasKey (setKey o k v) k = true := by
  simp [hasKey, getKey_setKey_self]

theorem hasKey_setKey_ne (o : JObj) (k k' : String) (v : Json) (h : k' ≠ k) :
    hasKey (setKey o k v) k' = hasKey o k' := by
  simp [hasKey, getKey_setKey_ne o k k' v h]

theorem getKey_eq_none_of_hasKey_false (o : JObj) (k : String)
    (h : hasKey o k = false) : getKey o k = none := by
  simp [hasKey] at h
  exact Option.eq_none_of_isNone (by simp [h])

theorem listModify_length (xs : List Json) (i : Nat) (f : Json → Json) :
    (listModify xs i f).length = xs.length := by
  induction xs generalizing i with
  | nil => simp [listModify]
  | cons x rest ih =>
      cases i with
      | zero => simp [listModify]
      | succ j => simp [listModify, ih]

theorem listModify_get_ne (xs : List Json) (i j : Nat) (f : Json → Json)
    (h : j ≠ i) : (listModify xs i f)[j]? = xs[j]? := by
  induction xs generalizing i j with
  | nil => simp [listModify]
  | cons x rest ih =>
      cases i with
      | zero =>
          cases j with
          | zero => exact absurd rfl h
          | succ j' => simp [listModify]
      | succ i' =>
          cases j with
          | zero => simp [listModify]
          | succ j' =>
              simp only [listModify, List.getElem?_cons_succ]
              exact ih i' j' (fun hh => h (by simp [hh]))

theorem listModify_get_self (xs : List Json) (i : Nat) (f : Json → Json) :
    (listModify xs i f)[i]? = (xs[i]?).map f := by
  induction xs generalizing i with
  | nil => simp [listModify]
  | cons x rest ih =>
      cases i with
      | zero => simp [listModify]
      | succ j =>
          simp only [listModify, List.getElem?_cons_succ]
          exact ih j

/-! ### The record model

`src/backend/src/models.py`, class `DishImageQuery`.  Timestamps are
embedded as a calendar day (`day`, what SQL `date(...)` extracts) plus a
time-of-day (`sec`); `isoformat` is an injective rendering of the pair.
-/

/-- A `datetime` value: `day` is its date part, `sec` its time of day. -/
structure PyDateTime where
  day : Int
  sec : Nat
deriving DecidableEq, Repr

/-- `datetime.isoformat()`, embedded as an injective rendering. -/
def PyDateTime.isoformat (t : PyDateTime) : String :=
  toString t.day ++ "T" ++ toString t.sec

/-- One row of the `dish_image_query_prod_dev` table.  `result_gemini`
is the analysis payload (`none` embeds SQL NULL; a stored payload is
always a JSON object in this codebase). -/
structure DishImageQuery where
  id : Nat
  user_id : Nat
  image_url : Option String
  result_gemini : Option JObj
  dish_position : Option Nat
  created_at : Option PyDateTime
  target_date : Option PyDateTime

/-! ### Iteration management

`src/backend/src/crud/dish_query_iterations.py` (the same functions are
duplicated verbatim in `src/backend/src/crud/crud_food_image_query.py`).
The Python functions call `datetime.now(timezone.utc).isoformat()`; the
embedding threads the resulting string in as the `now` argument.  The
database session plumbing (load by id / commit / rollback) is embedded by
passing the loaded record (or `none` for not-found) in and returning the
payload that gets committed.
-/

/-- `initialize_iterations_structure(analysis_result, metadata=None)`.
The source's `metadata` parameter defaults to `None`; callers of the
embedding pass `none` explicitly. -/
def initialize_iterations_structure (now : String) (analysis_result : JObj)
    (metadata : Option JObj) : JObj :=
  let md : JObj :=
    match metadata with
    | some m => m
    | none =>
        [("selected_dish", getD analysis_result "dish_name" (Json.str "Unknown")),
         ("selected_serving_size", Json.null),
         ("number_of_servings", Json.num 1),
         ("metadata_modified", Json.bool false)]
  [("iterations", Json.arr
      [Json.obj
        [("iteration_number", Json.num 1),
         ("created_at", Json.str now),
         ("user_feedback", Json.null),
         ("metadata", Json.obj md),
         ("analysis", Json.obj analysis_result)]]),
   ("current_iteration", Json.num 1)]

/-- `get_current_iteration(record)`.  `if not record.result_gemini` treats
both NULL and the empty dict `{}` as "no data". -/
def get_current_iteration (now : String) (record : DishImageQuery) :
    Option Json :=
  match record.result_gemini with
  | none => none
  | some rg =>
      if rg.isEmpty then none
      else if hasKey rg "iterations" = false then
        some (Json.obj
          [("iteration_number", Json.num 1),
           ("created_at", Json.str
              (match record.created_at with
               | some t => t.isoformat
               | none => now)),
           ("user_feedback", Json.null),
           ("metadata", Json.obj
              [("selected_dish", getD rg "dish_name" (Json.str "Unknown")),
               ("selected_serving_size", Json.null),
               ("number_of_servings", Json.num 1),
               ("metadata_modified", Json.bool false)]),
           ("analysis", Json.obj rg)])
      else
        let current_idx : ℚ := numD (getKey rg "current_iteration") 1 - 1
        let iterations := arrD (getKey rg "iterations")
        listAtQ iterations current_idx

/-- The legacy-upgrade step at the top of
`add_metadata_reanalysis_iteration`:
`if not query.result_gemini or "iterations" not in query.result_gemini:`
then re-initialize from `query.result_gemini or {}`. -/
def upgradedPayload (now : String) (result_gemini : Option JObj) : JObj :=
  if truthyObj result_gemini = false
      ∨ hasKey (result_gemini.getD []) "iterations" = false then
    let existing_analysis : JObj :=
      if truthyObj result_gemini then result_gemini.getD [] else []
    initialize_iterations_structure now existing_analysis none
  else result_gemini.getD []

/-- The payload transformation of `add_metadata_reanalysis_iteration`:
everything between loading the record and committing `result_gemini`. -/
def add_metadata_reanalysis_iteration_payload (now : String)
    (result_gemini : Option JObj) (analysis_result : JObj)
    (metadata : JObj) : JObj :=
  let rg : JObj := upgradedPayload now result_gemini
  let iterations := arrD (getKey rg "iterations")
  let new_iteration_number : ℚ := (iterations.length : ℚ) + 1
  let new_iteration : Json := Json.obj
    [("iteration_number", Json.num new_iteration_number),
     ("created_at", Json.str now),
     ("user_feedback", Json.null),
     ("metadata", Json.obj (setKey metadata "metadata_modified" (Json.bool true))),
     ("analysis", Json.obj analysis_result)]
  setKey (setKey rg "iterations" (Json.arr (iterations ++ [new_iteration])))
    "current_iteration" (Json.num new_iteration_number)

/-- `add_metadata_reanalysis_iteration(query_id, ...)`: `none` embeds the
not-found return. -/
def add_metadata_reanalysis_iteration (now : String)
    (record : Option DishImageQuery) (analysis_result : JObj)
    (metadata : JObj) : Option DishImageQuery :=
  match record with
  | none => none
  | some q =>
      let rg' := add_metadata_reanalysis_iteration_payload now q.result_gemini
        analysis_result metadata
      some { q with result_gemini := some rg' }

/-- The dict literal passed to `metadata.update({...})` in
`update_metadata`. -/
def mdUpdateList (selected_dish : String) (selected_serving_size : String)
    (number_of_servings : ℚ) : JObj :=
  [("selected_dish", Json.str selected_dish),
   ("selected_serving_size", Json.str selected_serving_size),
   ("number_of_servings", Json.num number_of_servings),
   ("metadata_modified", Json.bool true)]

/-- The in-place `iterations[current_idx]["metadata"].update({...})` of
`update_metadata`.  Every iteration the repository writes is an object
with a `"metadata"` object. -/
def updateIterMetadata (upd : JObj) (it : Json) : Json :=
  match it with
  | Json.obj fields =>
      Json.obj (setKey fields "metadata"
        (Json.obj (updateKeys (objD (getKey fields "metadata")) upd)))
  | other => other

/-- The payload transformation of `update_metadata` for a record whose
`result_gemini` is truthy: returns the function's boolean result and the
payload left in the record. -/
def update_metadata_payload (now : String) (result_gemini : JObj)
    (selected_dish : String) (selected_serving_size : String)
    (number_of_servings : ℚ) : Bool × JObj :=
  let rg : JObj :=
    if hasKey result_gemini "iterations" = false then
      initialize_iterations_structure now result_gemini none
    else result_gemini
  let current_idx : ℚ := numD (getKey rg "current_iteration") 1 - 1
  let iterations := arrD (getKey rg "iterations")
  if 0 ≤ current_idx ∧ current_idx < iterations.length ∧ current_idx.den = 1 then
    (true,
     setKey rg "iterations" (Json.arr
       (listModify iterations current_idx.num.toNat (updateIterMetadata
          (mdUpdateList selected_dish selected_serving_size number_of_servings)))))
  else (false, rg)

/-- `update_metadata(query_id, ...)` over the loaded record's payload:
`if not query or not query.result_gemini: return False`. -/
def update_metadata (now : String) (result_gemini : Option JObj)
    (selected_dish : String) (selected_serving_size : String)
    (number_of_servings : ℚ) : Bool × Option JObj :=
  match result_gemini with
  | none => (false, none)
  | some rg =>
      if rg.isEmpty then (false, some rg)
      else
        let r := update_metadata_payload now rg selected_dish
          selected_serving_size number_of_servings
        (r.1, some r.2)

/-! ### Payload accessors used in statements -/

/-- The `iterations` array of a payload (`payload.get("iterations", [])`). -/
def iterationsList (rg : JObj) : List Json :=
  arrD (getKey rg "iterations")

/-- The `current_iteration` value actually stored in a payload, when it is
a number. -/
def currentIterationVal (rg : JObj) : Option ℚ :=
  match getKey rg "current_iteration" with
  | some (Json.num q) => some q
  | _ => none

/-- The zero-based current index `payload.get("current_iteration", 1) - 1`. -/
def currentIdxQ (rg : JObj) : ℚ :=
  numD (getKey rg "current_iteration") 1 - 1

/-- The current index as a natural number (meaningful when
`validCurrentIdx` holds). -/
def currentIdxNat (rg : JObj) : Nat :=
  (currentIdxQ rg).num.toNat

/-- The source's `0 <= current_idx < len(iterations)` bounds check (with
the integrality guard of `listAtQ`). -/
def validCurrentIdx (rg : JObj) : Bool :=
  decide (0 ≤ currentIdxQ rg) && decide (currentIdxQ rg < (iterationsList rg).length)
    && decide ((currentIdxQ rg).den = 1)

/-! ### Step-2 background persistence

`src/backend/src/api/item_tasks.py`, `trigger_step2_analysis_background`.
The external LLM call happens before this logic and its result is the
`step2_result` argument; the whole task body is wrapped in a
`try/except` that only logs, so the task never raises into its caller —
the embedding is a total function returning the payload written back by
`update_dish_image_query_results`, or `none` when the task writes nothing
(record not found / payload falsy). -/

/-- The per-iteration mirror write of the step-2 result. -/
def mirrorStep2IntoIteration (step2_result : Json) (dish_name : String)
    (components : Json) (it : Json) : Json :=
  match it with
  | Json.obj fields =>
      let fields1 := setKey (setKey fields "step" (Json.num 2))
        "step2_data" step2_result
      let md := objD (getKey fields1 "metadata")
      Json.obj (setKey fields1 "metadata" (Json.obj
        (setKey (setKey md "confirmed_dish_name" (Json.str dish_name))
          "confirmed_components" components)))
  | other => other

/-- The persistence half of `trigger_step2_analysis_background`: from the
loaded record to the payload committed back (`none` = nothing written,
only a log line). -/
def record_step2_result (record : Option DishImageQuery) (step2_result : Json)
    (dish_name : String) (components : Json) : Option JObj :=
  match record with
  | none => none
  | some q =>
      match q.result_gemini with
      | none => none
      | some rg =>
          if rg.isEmpty then none
          else
            let rg1 := setKey (setKey (setKey rg "step" (Json.num 2))
              "step2_data" step2_result) "step1_confirmed" (Json.bool true)
            let rg2 :=
              if hasKey rg1 "iterations" = true
                  ∧ 0 < (iterationsList rg1).length then
                if validCurrentIdx rg1 = true then
                  setKey rg1 "iterations" (Json.arr
                    (listModify (iterationsList rg1) (currentIdxNat rg1)
                      (mirrorStep2IntoIteration step2_result dish_name components)))
                else rg1
              else rg1
            some rg2

/-! ### Step-1 confirmation (spec-modelled)

The `POST /api/item/\x7brecord_id\x7d/confirm-step1` endpoint is not in the
source tree: only its request schema (`Step1ConfirmationRequest` in
`src/backend/src/api/item_schemas.py`), its background task
(`trigger_step2_analysis_background` in `src/backend/src/api/item_tasks.py`)
and a route-presence test (`test_new_features.py`) refer to it. -/

/-- `payload.get("step") == 1` (a Python `==` against a non-number is
simply `False`). -/
def stepIs1 (rg : JObj) : Bool :=
  match getKey rg "step" with
  | some (Json.num q) => q == 1
  | _ => false

/-- Modelled from the spec: the handler of the missing `confirm-step1`
endpoint, spec section 4.2 `confirm_step1`: precondition "payload exists
and `step == 1`; otherwise ... rejecting the request"; on success an
optimistic update that "copies the existing payload, sets
`step1_confirmed=true`, stores `confirmed_dish_name` and
`confirmed_components` as top-level fields (not yet reflected in
`step2_data`), and persists immediately" before the step-2 call starts. -/
def confirm_step1 (result_gemini : Option JObj) (confirmed_dish_name : String)
    (confirmed_components : Json) : Except String JObj :=
  match result_gemini with
  | none => Except.error "payload absent"
  | some rg =>
      if stepIs1 rg then
        Except.ok (setKey (setKey (setKey rg "step1_confirmed" (Json.bool true))
          "confirmed_dish_name" (Json.str confirmed_dish_name))
          "confirmed_components" confirmed_components)
      else Except.error "record is not awaiting step-1 confirmation"

/-! ### Validation bounds

`src/backend/src/api/item_schemas.py` (`ComponentConfirmation`) and
`src/backend/src/schemas.py` (`MetadataUpdate`); pydantic `Field`
constraints on `number_of_servings`. -/

/-- `ComponentConfirmation.number_of_servings`: `Field(..., ge=0.01, le=10.0)`. -/
def componentConfirmationServingsValid (number_of_servings : ℚ) : Bool :=
  decide (0.01 ≤ number_of_servings) && decide (number_of_servings ≤ 10.0)

/-- `MetadataUpdate.number_of_servings`: `Field(..., ge=0.1, le=10.0)`. -/
def metadataUpdateServingsValid (number_of_servings : ℚ) : Bool :=
  decide (0.1 ≤ number_of_servings) && decide (number_of_servings ≤ 10.0)

/-! ### Date filtering

`src/backend/src/crud/dish_query_filters.py`,
`get_dish_image_queries_by_user_and_date` (duplicated in
`crud_food_image_query.py`).  The SQL query is embedded as a filter over
the table's rows followed by a sort realising
`ORDER BY dish_position ASC NULLS LAST, created_at DESC`.
`func.date(NULL)` is NULL, which never equals a date, so a row with a
NULL timestamp fails the corresponding comparison. -/

/-- `func.date(col) == query_date` for a nullable datetime column. -/
def dateIs (t : Option PyDateTime) (query_date : Int) : Bool :=
  match t with
  | none => false
  | some t => t.day == query_date

/-- The WHERE clause: `user_id == user_id AND ((target_date IS NOT NULL
AND date(target_date) == query_date) OR (target_date IS NULL AND
date(created_at) == query_date))`. -/
def matchesUserAndDate (user_id : Nat) (query_date : Int)
    (q : DishImageQuery) : Bool :=
  q.user_id == user_id &&
    ((q.target_date.isSome && dateIs q.target_date query_date) ||
     (q.target_date.isNone && dateIs q.created_at query_date))

/-- Sort key for `ORDER BY dish_position ASC NULLS LAST, created_at DESC`:
nulls in `dish_position` rank after every value; `created_at` is compared
reversed (the creation paths always set `created_at`, so its NULL rank is
irrelevant in practice). -/
def orderKey (q : DishImageQuery) : Nat × Nat × Nat × Int × Int :=
  ((match q.dish_position with | some _ => 0 | none => 1),
   (match q.dish_position with | some p => p | none => 0),
   (match q.created_at with | some _ => 1 | none => 0),
   (match q.created_at with | some t => -t.day | none => 0),
   (match q.created_at with | some t => -(t.sec : Int) | none => 0))

/-- Lexicographic comparison of sort keys. -/
def keyLe (a b : Nat × Nat × Nat × Int × Int) : Bool :=
  decide (a.1 < b.1) || (decide (a.1 = b.1) &&
    (decide (a.2.1 < b.2.1) || (decide (a.2.1 = b.2.1) &&
      (decide (a.2.2.1 < b.2.2.1) || (decide (a.2.2.1 = b.2.2.1) &&
        (decide (a.2.2.2.1 < b.2.2.2.1) || (decide (a.2.2.2.1 = b.2.2.2.1) &&
          decide (a.2.2.2.2 ≤ b.2.2.2.2))))))))

/-- `a` sorts no later than `b` under the query's ORDER BY. -/
def queryOrder (a b : DishImageQuery) : Bool :=
  keyLe (orderKey a) (orderKey b)

/-- `get_dish_image_queries_by_user_and_date(user_id, query_date)` over a
table of rows. -/
def get_dish_image_queries_by_user_and_date (db : List DishImageQuery)
    (user_id : Nat) (query_date : Int) : List DishImageQuery :=
  (db.filter (matchesUserAndDate user_id query_date)).mergeSort queryOrder

/-! ### Operation sequences for the pointer invariant -/

/-- One payload-mutating operation of the iteration structure manager. -/
inductive IterOp where
  | initOp (now : String) (analysis : JObj) (md : Option JObj)
  | appendOp (now : String) (analysis : JObj) (md : JObj)

/-- Apply one operation to the stored payload. -/
def applyIterOp (rg : Option JObj) : IterOp → JObj
  | IterOp.initOp now a md => initialize_iterations_structure now a md
  | IterOp.appendOp now a md =>
      add_metadata_reanalysis_iteration_payload now rg a md

/-- Run a sequence of operations from an arbitrary stored payload. -/
def runIterOps (rg : Option JObj) : List IterOp → Option JObj
  | [] => rg
  | op :: ops => runIterOps (some (applyIterOp rg op)) ops

/-! ### Structural lemmas about the two payload-growing operations -/

theorem initialize_eq (now : String) (a : JObj) (md : Option JObj) :
    ∃ m : JObj, initialize_iterations_structure now a md =
      [("iterations", Json.arr
          [Json.obj
            [("iteration_number", Json.num 1),
             ("created_at", Json.str now),
             ("user_feedback", Json.null),
             ("metadata", Json.obj m),
             ("analysis", Json.obj a)]]),
       ("current_iteration", Json.num 1)] := by
  cases md <;> exact ⟨_, rfl⟩

theorem iterationsList_of_init (now : String) (a : JObj) (md : Option JObj) :
    ∃ m : JObj, iterationsList (initialize_iterations_structure now a md) =
      [Json.obj
        [("iteration_number", Json.num 1),
         ("created_at", Json.str now),
         ("user_feedback", Json.null),
         ("metadata", Json.obj m),
         ("analysis", Json.obj a)]] := by
  obtain ⟨m, h⟩ := initialize_eq now a md
  refine ⟨m, ?_⟩
  rw [iterationsList, h]
  simp [getKey, arrD]

theorem currentIterationVal_of_init (now : String) (a : JObj)
    (md : Option JObj) :
    currentIterationVal (initialize_iterations_structure now a md) = some 1 := by
  obtain ⟨m, h⟩ := initialize_eq now a md
  rw [currentIterationVal, h]
  simp [getKey]

theorem add_payload_parts (now : String) (rg0 : Option JObj) (a md : JObj) :
    iterationsList (add_metadata_reanalysis_iteration_payload now rg0 a md)
      = iterationsList (upgradedPayload now rg0) ++
        [Json.obj
          [("iteration_number",
              Json.num (((iterationsList (upgradedPayload now rg0)).length : ℚ) + 1)),
           ("created_at", Json.str now),
           ("user_feedback", Json.null),
           ("metadata", Json.obj (setKey md "metadata_modified" (Json.bool true))),
           ("analysis", Json.obj a)]]
    ∧ currentIterationVal (add_metadata_reanalysis_iteration_payload now rg0 a md)
      = some (((iterationsList (upgradedPayload now rg0)).length : ℚ) + 1) := by
  constructor
  · rw [add_metadata_reanalysis_iteration_payload, iterationsList]
    rw [getKey_setKey_ne _ _ _ _ (by decide), getKey_setKey_self]
    simp [arrD, iterationsList]
  · rw [add_metadata_reanalysis_iteration_payload, currentIterationVal]
    rw [getKey_setKey_self]
    simp [iterationsList]

/-! ### Lemmas about the four-field metadata update -/

theorem getKey_updateKeys_mdUpdateList (m : JObj) (sd ss : String) (ns : ℚ) :
    getKey (updateKeys m (mdUpdateList sd ss ns)) "selected_dish"
      = some (Json.str sd)
    ∧ getKey (updateKeys m (mdUpdateList sd ss ns)) "selected_serving_size"
      = some (Json.str ss)
    ∧ getKey (updateKeys m (mdUpdateList sd ss ns)) "number_of_servings"
      = some (Json.num ns)
    ∧ getKey (updateKeys m (mdUpdateList sd ss ns)) "metadata_modified"
      = some (Json.bool true)
    ∧ (∀ k, k ≠ "selected_dish" → k ≠ "selected_serving_size" →
        k ≠ "number_of_servings" → k ≠ "metadata_modified" →
        getKey (updateKeys m (mdUpdateList sd ss ns)) k = getKey m k) := by
  rw [updateKeys, mdUpdateList]
  simp only [List.foldl]
  refine ⟨?_, ?_, ?_, ?_, ?_⟩
  · rw [getKey_setKey_ne _ _ _ _ (by decide), getKey_setKey_ne _ _ _ _ (by decide),
      getKey_setKey_ne _ _ _ _ (by decide), getKey_setKey_self]
  · rw [getKey_setKey_ne _ _ _ _ (by decide), getKey_setKey_ne _ _ _ _ (by decide),
      getKey_setKey_self]
  · rw [getKey_setKey_ne _ _ _ _ (by decide), getKey_setKey_self]
  · rw [getKey_setKey_self]
  · intro k h1 h2 h3 h4
    rw [getKey_setKey_ne _ _ _ _ h4, getKey_setKey_ne _ _ _ _ h3,
      getKey_setKey_ne _ _ _ _ h2, getKey_setKey_ne _ _ _ _ h1]

theorem updateKeys_mdUpdateList_idem (m : JObj) (sd ss : String) (ns : ℚ) :
    updateKeys (updateKeys m (mdUpdateList sd ss ns)) (mdUpdateList sd ss ns)
      = updateKeys m (mdUpdateList sd ss ns) := by
  obtain ⟨h1, h2, h3, h4, _⟩ := getKey_updateKeys_mdUpdateList m sd ss ns
  generalize hM : updateKeys m (mdUpdateList sd ss ns) = M at h1 h2 h3 h4 ⊢
  rw [updateKeys, mdUpdateList]
  simp only [List.foldl]
  rw [setKey_eq_of_getKey _ _ _ h1]
  rw [setKey_eq_of_getKey _ _ _ h2]
  rw [setKey_eq_of_getKey _ _ _ h3]
  rw [setKey_eq_of_getKey _ _ _ h4]

theorem updateIterMetadata_idem (sd ss : String) (ns : ℚ) (it : Json) :
    updateIterMetadata (mdUpdateList sd ss ns)
      (updateIterMetadata (mdUpdateList sd ss ns) it)
      = updateIterMetadata (mdUpdateList sd ss ns) it := by
  cases it with
  | obj fields =>
      rw [updateIterMetadata, updateIterMetadata]
      rw [getKey_setKey_self]
      rw [objD]
      rw [updateKeys_mdUpdateList_idem]
      rw [setKey_eq_of_getKey _ _ _ (getKey_setKey_self _ _ _)]
  | null => rfl
  | bool b => rfl
  | num q => rfl
  | str s => rfl
  | arr xs => rfl

theorem listModify_congr (xs : List Json) (i : Nat) (f g : Json → Json)
    (h : ∀ x, f x = g x) : listModify xs i f = listModify xs i g := by
  induction xs generalizing i with
  | nil => rfl
  | cons x rest ih =>
      cases i with
      | zero => rw [listModify, listModify, h]
      | succ j => rw [listModify, listModify, ih]

theorem listModify_listModify_self (xs : List Json) (i : Nat)
    (f g : Json → Json) :
    listModify (listModify xs i f) i g = listModify xs i (fun x => g (f x)) := by
  induction xs generalizing i with
  | nil => rfl
  | cons x rest ih =>
      cases i with
      | zero => rw [listModify, listModify, listModify]
      | succ j => rw [listModify, listModify, listModify, ih]

/-! ### Claim C1 -/

/-- C1: when the stored payload is legacy (no `"iterations"` key) or
absent/falsy, `add_metadata_reanalysis_iteration` first upgrades it into
an iteration structure whose iteration 1 carries the existing payload as
its `analysis`, then appends: the result has exactly two iterations,
iteration 1's `analysis` equal to the old payload, iteration 2's
`analysis` equal to the new result with `metadata_modified` true, and
`current_iteration = 2`. -/
theorem append_on_legacy_payload (now : String) (rg0 : Option JObj)
    (analysis_result md : JObj)
    (hleg : truthyObj rg0 = false ∨ hasKey (rg0.getD []) "iterations" = false) :
    ∃ m1 : JObj,
      iterationsList
          (add_metadata_reanalysis_iteration_payload now rg0 analysis_result md)
        = [Json.obj
            [("iteration_number", Json.num 1),
             ("created_at", Json.str now),
             ("user_feedback", Json.null),
             ("metadata", Json.obj m1),
             ("analysis", Json.obj (if truthyObj rg0 then rg0.getD [] else []))],
           Json.obj
            [("iteration_number", Json.num 2),
             ("created_at", Json.str now),
             ("user_feedback", Json.null),
             ("metadata", Json.obj (setKey md "metadata_modified" (Json.bool true))),
             ("analysis", Json.obj analysis_result)]]
      ∧ currentIterationVal
          (add_metadata_reanalysis_iteration_payload now rg0 analysis_result md)
        = some 2
      ∧ getKey (setKey md "metadata_modified" (Json.bool true))
          "metadata_modified" = some (Json.bool true) := by
  have hup : upgradedPayload now rg0 =
      initialize_iterations_structure now
        (if truthyObj rg0 then rg0.getD [] else []) none := by
    rw [upgradedPayload, if_pos hleg]
  obtain ⟨m1, hinit⟩ :=
    iterationsList_of_init now (if truthyObj rg0 then rg0.getD [] else []) none
  obtain ⟨hlist, hcur⟩ := add_payload_parts now rg0 analysis_result md
  refine ⟨m1, ?_, ?_, getKey_setKey_self _ _ _⟩
  · rw [hlist, hup, hinit]
    norm_num
  · rw [hcur, hup, hinit]
    norm_num

/-- Witness for C1, the spec's "Soup" scenario: a legacy payload
`{"dish_name": "Soup", "calories_kcal": 100}` re-analysed into
`{"dish_name": "Soup v2", "calories_kcal": 120}`. -/
theorem append_on_legacy_payload_witness :
    ∃ m1 : JObj,
      iterationsList
          (add_metadata_reanalysis_iteration_payload "2025-01-01T00:00:00+00:00"
            (some [("dish_name", Json.str "Soup"), ("calories_kcal", Json.num 100)])
            [("dish_name", Json.str "Soup v2"), ("calories_kcal", Json.num 120)]
            [("selected_dish", Json.str "Soup v2"),
             ("selected_serving_size", Json.str "1 bowl"),
             ("number_of_servings", Json.num 1)])
        = [Json.obj
            [("iteration_number", Json.num 1),
             ("created_at", Json.str "2025-01-01T00:00:00+00:00"),
             ("user_feedback", Json.null),
             ("metadata", Json.obj m1),
             ("analysis", Json.obj
                (if truthyObj (some [("dish_name", Json.str "Soup"),
                    ("calories_kcal", Json.num 100)]) then
                  (some [("dish_name", Json.str "Soup"),
                    ("calories_kcal", Json.num 100)]).getD []
                 else []))],
           Json.obj
            [("iteration_number", Json.num 2),
             ("created_at", Json.str "2025-01-01T00:00:00+00:00"),
             ("user_feedback", Json.null),
             ("metadata", Json.obj
                (setKey [("selected_dish", Json.str "Soup v2"),
                  ("selected_serving_size", Json.str "1 bowl"),
                  ("number_of_servings", Json.num 1)]
                  "metadata_modified" (Json.bool true))),
             ("analysis", Json.obj
                [("dish_name", Json.str "Soup v2"), ("calories_kcal", Json.num 120)])]]
      ∧ currentIterationVal
          (add_metadata_reanalysis_iteration_payload "2025-01-01T00:00:00+00:00"
            (some [("dish_name", Json.str "Soup"), ("calories_kcal", Json.num 100)])
            [("dish_name", Json.str "Soup v2"), ("calories_kcal", Json.num 120)]
            [("selected_dish", Json.str "Soup v2"),
             ("selected_serving_size", Json.str "1 bowl"),
             ("number_of_servings", Json.num 1)])
        = some 2
      ∧ getKey (setKey [("selected_dish", Json.str "Soup v2"),
            ("selected_serving_size", Json.str "1 bowl"),
            ("number_of_servings", Json.num 1)]
            "metadata_modified" (Json.bool true))
          "metadata_modified" = some (Json.bool true) :=
  append_on_legacy_payload "2025-01-01T00:00:00+00:00"
    (some [("dish_name", Json.str "Soup"), ("calories_kcal", Json.num 100)])
    [("dish_name", Json.str "Soup v2"), ("calories_kcal", Json.num 120)]
    [("selected_dish", Json.str "Soup v2"),
     ("selected_serving_size", Json.str "1 bowl"),
     ("number_of_servings", Json.num 1)]
    (Or.inr rfl)

/-! ### Claim C2 -/

/-- C2: `initialize` produces one iteration with `current_iteration = 1`;
every append sets `current_iteration` to the appended iteration's
`iteration_number`, which equals the new length of `iterations`; and after
any non-empty sequence of `initialize`/`append_iteration` operations the
stored payload satisfies `1 ≤ current_iteration ≤ len(iterations)`. -/
theorem iteration_pointer_invariant :
    (∀ now a md,
      currentIterationVal (initialize_iterations_structure now a md) = some 1
      ∧ (iterationsList (initialize_iterations_structure now a md)).length = 1)
    ∧ (∀ now rg0 a md,
      currentIterationVal (add_metadata_reanalysis_iteration_payload now rg0 a md)
        = some (((iterationsList
            (add_metadata_reanalysis_iteration_payload now rg0 a md)).length : ℚ))
      ∧ 1 ≤ (iterationsList
            (add_metadata_reanalysis_iteration_payload now rg0 a md)).length
      ∧ (∃ f : JObj,
          (iterationsList
            (add_metadata_reanalysis_iteration_payload now rg0 a md)).getLast?
            = some (Json.obj f)
          ∧ getKey f "iteration_number" = some (Json.num ((iterationsList
              (add_metadata_reanalysis_iteration_payload now rg0 a md)).length : ℚ))))
    ∧ (∀ rg0 ops rg, ops ≠ [] → runIterOps rg0 ops = some rg →
        ∃ q : ℚ, currentIterationVal rg = some q ∧ 1 ≤ q
          ∧ q ≤ (iterationsList rg).length) := by
  have hinit : ∀ now a md,
      currentIterationVal (initialize_iterations_structure now a md) = some 1
      ∧ (iterationsList (initialize_iterations_structure now a md)).length = 1 := by
    intro now a md
    obtain ⟨m, h⟩ := iterationsList_of_init now a md
    exact ⟨currentIterationVal_of_init now a md, by rw [h]; rfl⟩
  have happ : ∀ now rg0 a md,
      currentIterationVal (add_metadata_reanalysis_iteration_payload now rg0 a md)
        = some (((iterationsList
            (add_metadata_reanalysis_iteration_payload now rg0 a md)).length : ℚ))
      ∧ 1 ≤ (iterationsList
            (add_metadata_reanalysis_iteration_payload now rg0 a md)).length
      ∧ (∃ f : JObj,
          (iterationsList
            (add_metadata_reanalysis_iteration_payload now rg0 a md)).getLast?
            = some (Json.obj f)
          ∧ getKey f "iteration_number" = some (Json.num ((iterationsList
              (add_metadata_reanalysis_iteration_payload now rg0 a md)).length : ℚ))) := by
    intro now rg0 a md
    obtain ⟨hlist, hcur⟩ := add_payload_parts now rg0 a md
    have hlen : (iterationsList
        (add_metadata_reanalysis_iteration_payload now rg0 a md)).length
        = (iterationsList (upgradedPayload now rg0)).length + 1 := by
      rw [hlist]; simp
    refine ⟨?_, ?_, ?_⟩
    · rw [hcur, hlen]; push_cast; ring_nf
    · omega
    · refine ⟨[("iteration_number",
          Json.num (((iterationsList (upgradedPayload now rg0)).length : ℚ) + 1)),
         ("created_at", Json.str now),
         ("user_feedback", Json.null),
         ("metadata", Json.obj (setKey md "metadata_modified" (Json.bool true))),
         ("analysis", Json.obj a)], ?_, ?_⟩
      · rw [hlist, List.getLast?_concat]
      · rw [hlen]
        simp [getKey]
  have hPop : ∀ (rg0 : Option JObj) (op : IterOp),
      ∃ q : ℚ, currentIterationVal (applyIterOp rg0 op) = some q ∧ 1 ≤ q
        ∧ q ≤ (iterationsList (applyIterOp rg0 op)).length := by
    intro rg0 op
    cases op with
    | initOp now a md =>
        obtain ⟨h1, h2⟩ := hinit now a md
        exact ⟨1, h1, le_refl 1, by rw [applyIterOp] at *; rw [h2]; norm_num⟩
    | appendOp now a md =>
        obtain ⟨h1, h2, _⟩ := happ now rg0 a md
        refine ⟨_, h1, ?_, le_refl _⟩
        exact_mod_cast h2
  have hrun : ∀ (ops : List IterOp) (s : JObj),
      (∃ q : ℚ, currentIterationVal s = some q ∧ 1 ≤ q
        ∧ q ≤ (iterationsList s).length) →
      ∀ rg, runIterOps (some s) ops = some rg →
      ∃ q : ℚ, currentIterationVal rg = some q ∧ 1 ≤ q
        ∧ q ≤ (iterationsList rg).length := by
    intro ops
    induction ops with
    | nil =>
        intro s hs rg hrg
        rw [runIterOps] at hrg
        obtain rfl : s = rg := by injection hrg
        exact hs
    | cons op rest ih =>
        intro s _ rg hrg
        rw [runIterOps] at hrg
        exact ih (applyIterOp (some s) op) (hPop (some s) op) rg hrg
  refine ⟨hinit, happ, ?_⟩
  intro rg0 ops rg hne hrun'
  cases ops with
  | nil => exact absurd rfl hne
  | cons op rest =>
      rw [runIterOps] at hrun'
      exact hrun rest (applyIterOp rg0 op) (hPop rg0 op) rg hrun'

/-- Witness for C2: a concrete initialize-then-append sequence satisfies
the pointer invariant. -/
theorem iteration_pointer_invariant_witness :
    ∃ q : ℚ,
      currentIterationVal
        ((runIterOps none
          [IterOp.initOp "t1" [("dish_name", Json.str "Soup")] none,
           IterOp.appendOp "t2" [("dish_name", Json.str "Soup v2")]
             [("selected_dish", Json.str "Soup v2")]]).getD [])
        = some q
      ∧ 1 ≤ q
      ∧ q ≤ (iterationsList
          ((runIterOps none
            [IterOp.initOp "t1" [("dish_name", Json.str "Soup")] none,
             IterOp.appendOp "t2" [("dish_name", Json.str "Soup v2")]
               [("selected_dish", Json.str "Soup v2")]]).getD [])).length := by
  obtain ⟨q, h1, h2, h3⟩ := iteration_pointer_invariant.2.2 none
    [IterOp.initOp "t1" [("dish_name", Json.str "Soup")] none,
     IterOp.appendOp "t2" [("dish_name", Json.str "Soup v2")]
       [("selected_dish", Json.str "Soup v2")]]
    ((runIterOps none
      [IterOp.initOp "t1" [("dish_name", Json.str "Soup")] none,
       IterOp.appendOp "t2" [("dish_name", Json.str "Soup v2")]
         [("selected_dish", Json.str "Soup v2")]]).getD [])
    (by simp) rfl
  exact ⟨q, h1, h2, h3⟩

/-! ### Claim C3 -/

/-- A record whose stored payload is the non-null but empty dict `{}`. -/
def emptyPayloadRecord : DishImageQuery :=
  { id := 1, user_id := 1, image_url := none, result_gemini := some [],
    dish_position := none, created_at := none, target_date := none }

/-- Counterexample to C3 as stated: the payload `{}` is non-null and has
no `"iterations"` key, yet `get_current_iteration` returns `None` (Python
`if not record.result_gemini` treats the empty dict as falsy), not a
synthesized iteration. -/
theorem get_current_iteration_empty_dict_cex :
    emptyPayloadRecord.result_gemini ≠ none
    ∧ hasKey [] "iterations" = false
    ∧ get_current_iteration "2025-01-01T00:00:00+00:00" emptyPayloadRecord
      = none := by
  refine ⟨?_, rfl, rfl⟩
  rw [emptyPayloadRecord]
  simp

/-- C3 (amended): for every record whose payload is non-null and
*non-empty* but lacks an `"iterations"` key, `get_current_iteration`
synthesizes an iteration whose `metadata.selected_dish` is the payload's
`dish_name` value (or `"Unknown"` when absent), `selected_serving_size`
null, `number_of_servings` 1.0, `metadata_modified` false, and whose
`analysis` is the raw payload.  The function reads the record and returns
the iteration without producing any new payload, so the stored payload is
not rewritten. -/
theorem get_current_iteration_legacy (now : String) (record : DishImageQuery)
    (rg : JObj) (h1 : record.result_gemini = some rg)
    (h2 : rg.isEmpty = false) (h3 : hasKey rg "iterations" = false) :
    ∃ it md : JObj,
      get_current_iteration now record = some (Json.obj it)
      ∧ getKey it "analysis" = some (Json.obj rg)
      ∧ getKey it "iteration_number" = some (Json.num 1)
      ∧ getKey it "metadata" = some (Json.obj md)
      ∧ (∀ v, getKey rg "dish_name" = some v →
          getKey md "selected_dish" = some v)
      ∧ (getKey rg "dish_name" = none →
          getKey md "selected_dish" = some (Json.str "Unknown"))
      ∧ getKey md "selected_serving_size" = some Json.null
      ∧ getKey md "number_of_servings" = some (Json.num 1)
      ∧ getKey md "metadata_modified" = some (Json.bool false) := by
  rw [get_current_iteration, h1]
  simp only [h2, Bool.false_eq_true, if_false, h3, ite_true]
  refine ⟨[("iteration_number", Json.num 1),
      ("created_at", Json.str (match record.created_at with
        | some t => t.isoformat
        | none => now)),
      ("user_feedback", Json.null),
      ("metadata", Json.obj
        [("selected_dish", getD rg "dish_name" (Json.str "Unknown")),
         ("selected_serving_size", Json.null),
         ("number_of_servings", Json.num 1),
         ("metadata_modified", Json.bool false)]),
      ("analysis", Json.obj rg)],
    [("selected_dish", getD rg "dish_name" (Json.str "Unknown")),
     ("selected_serving_size", Json.null),
     ("number_of_servings", Json.num 1),
     ("metadata_modified", Json.bool false)],
    rfl, ?_, ?_, ?_, ?_, ?_, ?_, ?_, ?_⟩
  · simp [getKey]
  · simp [getKey]
  · simp [getKey]
  · intro v hv
    simp [getKey, getD, hv]
  · intro hv
    simp [getKey, getD, hv]
  · simp [getKey]
  · simp [getKey]
  · simp [getKey]

/-- Witness for C3 (amended): a legacy `{"dish_name": "Soup"}` payload. -/
theorem get_current_iteration_legacy_witness :
    ∃ it md : JObj,
      get_current_iteration "2025-01-01T00:00:00+00:00"
        { id := 2, user_id := 1, image_url := none,
          result_gemini := some [("dish_name", Json.str "Soup")],
          dish_position := none, created_at := some ⟨19723, 3600⟩,
          target_date := none }
        = some (Json.obj it)
      ∧ getKey it "analysis"
        = some (Json.obj [("dish_name", Json.str "Soup")])
      ∧ getKey it "iteration_number" = some (Json.num 1)
      ∧ getKey it "metadata" = some (Json.obj md)
      ∧ (∀ v, getKey [("dish_name", Json.str "Soup")] "dish_name" = some v →
          getKey md "selected_dish" = some v)
      ∧ (getKey [("dish_name", Json.str "Soup")] "dish_name" = none →
          getKey md "selected_dish" = some (Json.str "Unknown"))
      ∧ getKey md "selected_serving_size" = some Json.null
      ∧ getKey md "number_of_servings" = some (Json.num 1)
      ∧ getKey md "metadata_modified" = some (Json.bool false) :=
  get_current_iteration_legacy "2025-01-01T00:00:00+00:00"
    { id := 2, user_id := 1, image_url := none,
      result_gemini := some [("dish_name", Json.str "Soup")],
      dish_position := none, created_at := some ⟨19723, 3600⟩,
      target_date := none }
    [("dish_name", Json.str "Soup")] rfl rfl rfl

/-! ### Claim C10 -/

/-- C10: a payload with an `"iterations"` array but no
`"current_iteration"` key resolves the current index to the first
iteration (the missing pointer defaults to 1): `get_current_iteration`
returns iteration 0, and `update_metadata` succeeds and edits iteration
0's metadata, leaving all later iterations unchanged. -/
theorem missing_pointer_defaults_to_first (now : String)
    (record : DishImageQuery) (rg : JObj) (f0 : JObj) (rest : List Json)
    (h1 : record.result_gemini = some rg)
    (h2 : hasKey rg "iterations" = true)
    (h3 : hasKey rg "current_iteration" = false)
    (h4 : iterationsList rg = Json.obj f0 :: rest) :
    currentIdxQ rg = 0
    ∧ get_current_iteration now record = some (Json.obj f0)
    ∧ (∀ sd ss ns,
        (update_metadata_payload now rg sd ss ns).1 = true
        ∧ (∀ j, j ≠ 0 →
            (iterationsList (update_metadata_payload now rg sd ss ns).2)[j]?
              = (iterationsList rg)[j]?)
        ∧ (∃ f1 m1 : JObj,
            (iterationsList (update_metadata_payload now rg sd ss ns).2)[0]?
              = some (Json.obj f1)
            ∧ getKey f1 "metadata" = some (Json.obj m1)
            ∧ getKey m1 "selected_dish" = some (Json.str sd)
            ∧ getKey m1 "selected_serving_size" = some (Json.str ss)
            ∧ getKey m1 "number_of_servings" = some (Json.num ns)
            ∧ getKey m1 "metadata_modified" = some (Json.bool true))) := by
  have hidx : currentIdxQ rg = 0 := by
    rw [currentIdxQ, getKey_eq_none_of_hasKey_false rg _ h3]
    norm_num [numD]
  have hne : rg.isEmpty = false := by
    cases rg with
    | nil => rw [hasKey, getKey] at h2; simp at h2
    | cons kv rest' => rfl
  have hcond : 0 ≤ currentIdxQ rg ∧
      currentIdxQ rg < (iterationsList rg).length ∧ (currentIdxQ rg).den = 1 := by
    rw [hidx, h4]
    refine ⟨le_refl 0, ?_, rfl⟩
    simp only [List.length_cons]
    push_cast
    positivity
  refine ⟨hidx, ?_, ?_⟩
  · rw [get_current_iteration, h1]
    simp only [hne, Bool.false_eq_true, if_false, h2, ite_false]
    show listAtQ (iterationsList rg) (currentIdxQ rg) = some (Json.obj f0)
    rw [listAtQ, if_pos]
    · rw [hidx, h4]
      norm_num
    · exact hcond
  · intro sd ss ns
    have hpre : (if hasKey rg "iterations" = false then
        initialize_iterations_structure now rg none else rg) = rg := by
      rw [h2]; simp
    have hcond' : 0 ≤ numD (getKey rg "current_iteration") 1 - 1 ∧
        numD (getKey rg "current_iteration") 1 - 1
          < ((arrD (getKey rg "iterations")).length : ℚ) ∧
        (numD (getKey rg "current_iteration") 1 - 1).den = 1 := hcond
    have hout : update_metadata_payload now rg sd ss ns =
        (true, setKey rg "iterations" (Json.arr
          (listModify (iterationsList rg) (currentIdxQ rg).num.toNat
            (updateIterMetadata (mdUpdateList sd ss ns))))) := by
      rw [update_metadata_payload, hpre]
      rw [if_pos hcond']
      rfl
    have hi0 : (currentIdxQ rg).num.toNat = 0 := by rw [hidx]; rfl
    have hiterout : iterationsList (update_metadata_payload now rg sd ss ns).2
        = listModify (iterationsList rg) 0
            (updateIterMetadata (mdUpdateList sd ss ns)) := by
      rw [hout]
      show iterationsList (setKey rg "iterations" _) = _
      rw [iterationsList, getKey_setKey_self, arrD, hi0]
    refine ⟨by rw [hout], ?_, ?_⟩
    · intro j hj
      rw [hiterout, listModify_get_ne _ _ _ _ hj]
    · refine ⟨setKey f0 "metadata" (Json.obj
          (updateKeys (objD (getKey f0 "metadata")) (mdUpdateList sd ss ns))),
        updateKeys (objD (getKey f0 "metadata")) (mdUpdateList sd ss ns),
        ?_, getKey_setKey_self _ _ _, ?_, ?_, ?_, ?_⟩
      · rw [hiterout, h4]
        rw [listModify]
        rw [updateIterMetadata]
        simp
      · exact (getKey_updateKeys_mdUpdateList _ sd ss ns).1
      · exact (getKey_updateKeys_mdUpdateList _ sd ss ns).2.1
      · exact (getKey_updateKeys_mdUpdateList _ sd ss ns).2.2.1
      · exact (getKey_updateKeys_mdUpdateList _ sd ss ns).2.2.2.1

/-- Witness for C10: two iterations, no `current_iteration` key. -/
theorem missing_pointer_defaults_to_first_witness :
    currentIdxQ [("iterations", Json.arr
      [Json.obj [("iteration_number", Json.num 1), ("metadata", Json.obj [])],
       Json.obj [("iteration_number", Json.num 2), ("metadata", Json.obj [])]])]
      = 0
    ∧ get_current_iteration "t0"
        { id := 3, user_id := 1, image_url := none,
          result_gemini := some [("iterations", Json.arr
            [Json.obj [("iteration_number", Json.num 1), ("metadata", Json.obj [])],
             Json.obj [("iteration_number", Json.num 2), ("metadata", Json.obj [])]])],
          dish_position := none, created_at := none, target_date := none }
        = some (Json.obj [("iteration_number", Json.num 1), ("metadata", Json.obj [])])
    ∧ (∀ sd ss ns,
        (update_metadata_payload "t0"
          [("iterations", Json.arr
            [Json.obj [("iteration_number", Json.num 1), ("metadata", Json.obj [])],
             Json.obj [("iteration_number", Json.num 2), ("metadata", Json.obj [])]])]
          sd ss ns).1 = true
        ∧ (∀ j, j ≠ 0 →
            (iterationsList (update_metadata_payload "t0"
              [("iterations", Json.arr
                [Json.obj [("iteration_number", Json.num 1), ("metadata", Json.obj [])],
                 Json.obj [("iteration_number", Json.num 2), ("metadata", Json.obj [])]])]
              sd ss ns).2)[j]?
              = (iterationsList
                  [("iterations", Json.arr
                    [Json.obj [("iteration_number", Json.num 1), ("metadata", Json.obj [])],
                     Json.obj [("iteration_number", Json.num 2), ("metadata", Json.obj [])]])])[j]?)
        ∧ (∃ f1 m1 : JObj,
            (iterationsList (update_metadata_payload "t0"
              [("iterations", Json.arr
                [Json.obj [("iteration_number", Json.num 1), ("metadata", Json.obj [])],
                 Json.obj [("iteration_number", Json.num 2), ("metadata", Json.obj [])]])]
              sd ss ns).2)[0]?
              = some (Json.obj f1)
            ∧ getKey f1 "metadata" = some (Json.obj m1)
            ∧ getKey m1 "selected_dish" = some (Json.str sd)
            ∧ getKey m1 "selected_serving_size" = some (Json.str ss)
            ∧ getKey m1 "number_of_servings" = some (Json.num ns)
            ∧ getKey m1 "metadata_modified" = some (Json.bool true))) :=
  missing_pointer_defaults_to_first "t0"
    { id := 3, user_id := 1, image_url := none,
      result_gemini := some [("iterations", Json.arr
        [Json.obj [("iteration_number", Json.num 1), ("metadata", Json.obj [])],
         Json.obj [("iteration_number", Json.num 2), ("metadata", Json.obj [])]])],
      dish_position := none, created_at := none, target_date := none }
    [("iterations", Json.arr
      [Json.obj [("iteration_number", Json.num 1), ("metadata", Json.obj [])],
       Json.obj [("iteration_number", Json.num 2), ("metadata", Json.obj [])]])]
    [("iteration_number", Json.num 1), ("metadata", Json.obj [])]
    [Json.obj [("iteration_number", Json.num 2), ("metadata", Json.obj [])]]
    rfl rfl rfl rfl

/-! ### Shared lemmas about `update_metadata` on a payload that already
has the iterations structure -/

theorem update_metadata_payload_valid (now : String) (rg : JObj)
    (sd ss : String) (ns : ℚ)
    (hIter : hasKey rg "iterations" = true)
    (hvalid : validCurrentIdx rg = true) :
    update_metadata_payload now rg sd ss ns =
      (true, setKey rg "iterations" (Json.arr
        (listModify (iterationsList rg) (currentIdxNat rg)
          (updateIterMetadata (mdUpdateList sd ss ns))))) := by
  have hpre : (if hasKey rg "iterations" = false then
      initialize_iterations_structure now rg none else rg) = rg := by
    rw [hIter]; simp
  rw [validCurrentIdx] at hvalid
  simp only [Bool.and_eq_true, decide_eq_true_eq] at hvalid
  obtain ⟨⟨ha, hb⟩, hc⟩ := hvalid
  have hcond : 0 ≤ numD (getKey rg "current_iteration") 1 - 1 ∧
      numD (getKey rg "current_iteration") 1 - 1
        < ((arrD (getKey rg "iterations")).length : ℚ) ∧
      (numD (getKey rg "current_iteration") 1 - 1).den = 1 := ⟨ha, hb, hc⟩
  rw [update_metadata_payload, hpre, if_pos hcond]
  rfl

theorem update_metadata_payload_invalid (now : String) (rg : JObj)
    (sd ss : String) (ns : ℚ)
    (hIter : hasKey rg "iterations" = true)
    (hinvalid : validCurrentIdx rg = false) :
    update_metadata_payload now rg sd ss ns = (false, rg) := by
  have hpre : (if hasKey rg "iterations" = false then
      initialize_iterations_structure now rg none else rg) = rg := by
    rw [hIter]; simp
  rw [validCurrentIdx] at hinvalid
  simp only [Bool.and_eq_true, decide_eq_true_eq, Bool.and_eq_false_iff,
    decide_eq_false_iff_not] at hinvalid
  have hcond : ¬ (0 ≤ numD (getKey rg "current_iteration") 1 - 1 ∧
      numD (getKey rg "current_iteration") 1 - 1
        < ((arrD (getKey rg "iterations")).length : ℚ) ∧
      (numD (getKey rg "current_iteration") 1 - 1).den = 1) := by
    intro hcontra
    obtain ⟨ha, hb, hc⟩ := hcontra
    rcases hinvalid with (ha' | hb') | hc'
    · exact ha' ha
    · exact hb' hb
    · exact hc' hc
  rw [update_metadata_payload, hpre, if_neg hcond]

/-- A concrete two-iteration payload with `current_iteration = 2`, used
by the witnesses below. -/
def demoPayload2 : JObj :=
  [("iterations", Json.arr
    [Json.obj [("iteration_number", Json.num 1),
       ("metadata", Json.obj [("selected_dish", Json.str "Old")])],
     Json.obj [("iteration_number", Json.num 2),
       ("metadata", Json.obj [])]]),
   ("current_iteration", Json.num 2)]

theorem validCurrentIdx_demoPayload2 : validCurrentIdx demoPayload2 = true := by
  have hg : getKey demoPayload2 "current_iteration" = some (Json.num 2) := by
    rw [demoPayload2]
    simp [getKey]
  have hq : currentIdxQ demoPayload2 = 1 := by
    rw [currentIdxQ, hg]
    norm_num [numD]
  have hl : (iterationsList demoPayload2).length = 2 := by
    rw [iterationsList, demoPayload2]
    simp [getKey, arrD]
  rw [validCurrentIdx, hq, hl]
  norm_num

/-! ### Claim C8 -/

/-- C8: for a payload that already has the iterations structure and a
valid current index, `update_metadata` is idempotent — a second call with
the same `selected_dish`, `selected_serving_size` and
`number_of_servings` returns `True` and leaves the payload exactly equal
to its state after the first call. -/
theorem update_metadata_idempotent (now1 now2 : String) (rg : JObj)
    (sd ss : String) (ns : ℚ)
    (hIter : hasKey rg "iterations" = true)
    (hvalid : validCurrentIdx rg = true) :
    update_metadata_payload now2 (update_metadata_payload now1 rg sd ss ns).2
        sd ss ns
      = (true, (update_metadata_payload now1 rg sd ss ns).2) := by
  have h1 := update_metadata_payload_valid now1 rg sd ss ns hIter hvalid
  have hrg1 : (update_metadata_payload now1 rg sd ss ns).2
      = setKey rg "iterations" (Json.arr
          (listModify (iterationsList rg) (currentIdxNat rg)
            (updateIterMetadata (mdUpdateList sd ss ns)))) := by rw [h1]
  generalize hL1 : listModify (iterationsList rg) (currentIdxNat rg)
    (updateIterMetadata (mdUpdateList sd ss ns)) = L1 at hrg1
  have hIter1 : hasKey (setKey rg "iterations" (Json.arr L1)) "iterations"
      = true := hasKey_setKey_self _ _ _
  have hcur1 : getKey (setKey rg "iterations" (Json.arr L1)) "current_iteration"
      = getKey rg "current_iteration" := getKey_setKey_ne _ _ _ _ (by decide)
  have hidx1 : currentIdxQ (setKey rg "iterations" (Json.arr L1))
      = currentIdxQ rg := by rw [currentIdxQ, currentIdxQ, hcur1]
  have hiters1 : iterationsList (setKey rg "iterations" (Json.arr L1)) = L1 := by
    rw [iterationsList, getKey_setKey_self, arrD]
  have hlen1 : L1.length = (iterationsList rg).length := by
    rw [← hL1]; exact listModify_length _ _ _
  have hvalid1 : validCurrentIdx (setKey rg "iterations" (Json.arr L1))
      = true := by
    rw [validCurrentIdx, hidx1, hiters1, hlen1]
    rw [validCurrentIdx] at hvalid
    exact hvalid
  have hidxn : currentIdxNat (setKey rg "iterations" (Json.arr L1))
      = currentIdxNat rg := by
    rw [currentIdxNat, hidx1]
    rfl
  have h2 := update_metadata_payload_valid now2
    (setKey rg "iterations" (Json.arr L1)) sd ss ns hIter1 hvalid1
  rw [hrg1, h2, hiters1, hidxn, ← hL1]
  rw [listModify_listModify_self]
  rw [listModify_congr _ _ _ _ (fun x => updateIterMetadata_idem sd ss ns x)]
  rw [hL1]
  exact congrArg (fun z => (true, z))
    (setKey_eq_of_getKey _ _ _ (getKey_setKey_self _ _ _))

/-- Witness for C8: a concrete two-iteration payload with
`current_iteration = 2`. -/
theorem update_metadata_idempotent_witness :
    update_metadata_payload "t2"
      (update_metadata_payload "t1" demoPayload2 "Chicken Rice" "1 plate" 2).2
      "Chicken Rice" "1 plate" 2
    = (true,
       (update_metadata_payload "t1" demoPayload2 "Chicken Rice" "1 plate" 2).2) :=
  update_metadata_idempotent "t1" "t2" demoPayload2 "Chicken Rice" "1 plate" 2
    rfl validCurrentIdx_demoPayload2

/-! ### Claim C9 -/

/-- C9: on a payload that already has the iterations structure,
`update_metadata` never creates a new iteration: the length of the
iterations array and every top-level key other than `"iterations"`
(including the `current_iteration` pointer) are unchanged, every
iteration other than the current one is unchanged, and when the current
index is valid, every field of the current iteration other than its
`metadata` is unchanged while the metadata gets `selected_dish`,
`selected_serving_size`, `number_of_servings` set, `metadata_modified`
forced to `true`, and its other entries preserved. -/
theorem update_metadata_frame (now : String) (rg : JObj)
    (sd ss : String) (ns : ℚ)
    (hIter : hasKey rg "iterations" = true) :
    (iterationsList (update_metadata_payload now rg sd ss ns).2).length
      = (iterationsList rg).length
    ∧ (∀ k, k ≠ "iterations" →
        getKey (update_metadata_payload now rg sd ss ns).2 k = getKey rg k)
    ∧ (∀ j, j ≠ currentIdxNat rg →
        (iterationsList (update_metadata_payload now rg sd ss ns).2)[j]?
          = (iterationsList rg)[j]?)
    ∧ (validCurrentIdx rg = true → ∀ f0 : JObj,
        (iterationsList rg)[currentIdxNat rg]? = some (Json.obj f0) →
        ∃ f1 m1 : JObj,
          (iterationsList (update_metadata_payload now rg sd ss ns).2)[currentIdxNat rg]?
            = some (Json.obj f1)
          ∧ (∀ k, k ≠ "metadata" → getKey f1 k = getKey f0 k)
          ∧ getKey f1 "metadata" = some (Json.obj m1)
          ∧ getKey m1 "selected_dish" = some (Json.str sd)
          ∧ getKey m1 "selected_serving_size" = some (Json.str ss)
          ∧ getKey m1 "number_of_servings" = some (Json.num ns)
          ∧ getKey m1 "metadata_modified" = some (Json.bool true)
          ∧ (∀ k, k ≠ "selected_dish" → k ≠ "selected_serving_size" →
              k ≠ "number_of_servings" → k ≠ "metadata_modified" →
              getKey m1 k = getKey (objD (getKey f0 "metadata")) k)) := by
  cases hv : validCurrentIdx rg with
  | false =>
      have h := update_metadata_payload_invalid now rg sd ss ns hIter hv
      rw [h]
      exact ⟨rfl, fun k _ => rfl, fun j _ => rfl,
        fun hvt => absurd hvt (by simp)⟩
  | true =>
      have h := update_metadata_payload_valid now rg sd ss ns hIter hv
      have hiterout : iterationsList (update_metadata_payload now rg sd ss ns).2
          = listModify (iterationsList rg) (currentIdxNat rg)
              (updateIterMetadata (mdUpdateList sd ss ns)) := by
        rw [h]
        show iterationsList (setKey rg "iterations" _) = _
        rw [iterationsList, getKey_setKey_self, arrD]
      refine ⟨?_, ?_, ?_, ?_⟩
      · rw [hiterout]; exact listModify_length _ _ _
      · intro k hk
        rw [h]
        exact getKey_setKey_ne _ _ _ _ hk
      · intro j hj
        rw [hiterout]
        exact listModify_get_ne _ _ _ _ hj
      · intro _ f0 hf0
        refine ⟨setKey f0 "metadata" (Json.obj
            (updateKeys (objD (getKey f0 "metadata")) (mdUpdateList sd ss ns))),
          updateKeys (objD (getKey f0 "metadata")) (mdUpdateList sd ss ns),
          ?_, ?_, getKey_setKey_self _ _ _,
          (getKey_updateKeys_mdUpdateList _ sd ss ns).1,
          (getKey_updateKeys_mdUpdateList _ sd ss ns).2.1,
          (getKey_updateKeys_mdUpdateList _ sd ss ns).2.2.1,
          (getKey_updateKeys_mdUpdateList _ sd ss ns).2.2.2.1,
          (getKey_updateKeys_mdUpdateList _ sd ss ns).2.2.2.2⟩
        · rw [hiterout, listModify_get_self, hf0]
          show some (updateIterMetadata (mdUpdateList sd ss ns) (Json.obj f0)) = _
          rw [updateIterMetadata]
        · intro k hk
          exact getKey_setKey_ne _ _ _ _ hk

/-- Witness for C9: the concrete two-iteration payload `demoPayload2`. -/
theorem update_metadata_frame_witness :
    (iterationsList (update_metadata_payload "t1" demoPayload2
        "Fried Rice" "1 cup" 3).2).length
      = (iterationsList demoPayload2).length
    ∧ (∀ k, k ≠ "iterations" →
        getKey (update_metadata_payload "t1" demoPayload2
          "Fried Rice" "1 cup" 3).2 k = getKey demoPayload2 k)
    ∧ (∀ j, j ≠ currentIdxNat demoPayload2 →
        (iterationsList (update_metadata_payload "t1" demoPayload2
          "Fried Rice" "1 cup" 3).2)[j]?
          = (iterationsList demoPayload2)[j]?)
    ∧ (validCurrentIdx demoPayload2 = true → ∀ f0 : JObj,
        (iterationsList demoPayload2)[currentIdxNat demoPayload2]?
          = some (Json.obj f0) →
        ∃ f1 m1 : JObj,
          (iterationsList (update_metadata_payload "t1" demoPayload2
            "Fried Rice" "1 cup" 3).2)[currentIdxNat demoPayload2]?
            = some (Json.obj f1)
          ∧ (∀ k, k ≠ "metadata" → getKey f1 k = getKey f0 k)
          ∧ getKey f1 "metadata" = some (Json.obj m1)
          ∧ getKey m1 "selected_dish" = some (Json.str "Fried Rice")
          ∧ getKey m1 "selected_serving_size" = some (Json.str "1 cup")
          ∧ getKey m1 "number_of_servings" = some (Json.num 3)
          ∧ getKey m1 "metadata_modified" = some (Json.bool true)
          ∧ (∀ k, k ≠ "selected_dish" → k ≠ "selected_serving_size" →
              k ≠ "number_of_servings" → k ≠ "metadata_modified" →
              getKey m1 k = getKey (objD (getKey f0 "metadata")) k)) :=
  update_metadata_frame "t1" demoPayload2 "Fried Rice" "1 cup" 3 rfl

/-! ### Claim C5 -/

/-- C5: the persistence half of the step-2 background task never raises
(it is a total function here, matching the task's catch-all
`try/except` that only logs): when the record is missing or its payload
is absent/falsy it writes nothing; otherwise the written payload has
top-level `step = 2`, `step2_data` equal to the result and
`step1_confirmed = true`, and when the payload has a non-empty
`iterations` array with a valid current index, that iteration (an object
with a `metadata` object, as all iterations written by this codebase
are) is mirrored: its `step` and `step2_data` are set and its metadata
gains `confirmed_dish_name` / `confirmed_components`. -/
theorem record_step2_result_spec (record : Option DishImageQuery)
    (step2_result : Json) (dish_name : String) (components : Json) :
    (record = none →
      record_step2_result record step2_result dish_name components = none)
    ∧ (∀ q, record = some q → q.result_gemini = none →
        record_step2_result record step2_result dish_name components = none)
    ∧ (∀ q rg, record = some q → q.result_gemini = some rg →
        rg.isEmpty = true →
        record_step2_result record step2_result dish_name components = none)
    ∧ (∀ q rg, record = some q → q.result_gemini = some rg →
        rg.isEmpty = false →
        ∃ rg' : JObj,
          record_step2_result record step2_result dish_name components
            = some rg'
          ∧ getKey rg' "step" = some (Json.num 2)
          ∧ getKey rg' "step2_data" = some step2_result
          ∧ getKey rg' "step1_confirmed" = some (Json.bool true)
          ∧ (∀ k, k ≠ "step" → k ≠ "step2_data" → k ≠ "step1_confirmed" →
              k ≠ "iterations" → getKey rg' k = getKey rg k)
          ∧ ((hasKey rg "iterations" = true ∧ 0 < (iterationsList rg).length) →
              validCurrentIdx rg = true →
              ∀ f0 : JObj, (iterationsList rg)[currentIdxNat rg]?
                  = some (Json.obj f0) →
              ∃ f1 m1 : JObj,
                (iterationsList rg')[currentIdxNat rg]? = some (Json.obj f1)
                ∧ getKey f1 "step" = some (Json.num 2)
                ∧ getKey f1 "step2_data" = some step2_result
                ∧ getKey f1 "metadata" = some (Json.obj m1)
                ∧ getKey m1 "confirmed_dish_name" = some (Json.str dish_name)
                ∧ getKey m1 "confirmed_components" = some components)) := by
  refine ⟨?_, ?_, ?_, ?_⟩
  · intro h; rw [h, record_step2_result]
  · intro q hq hrg
    rw [hq, record_step2_result, hrg]
  · intro q rg hq hrg hempty
    rw [hq, record_step2_result, hrg]
    simp [hempty]
  · intro q rg hq hrg hne
    rw [hq] at *
    have hstep : ∀ k, k ≠ "step" → k ≠ "step2_data" → k ≠ "step1_confirmed" →
        getKey (setKey (setKey (setKey rg "step" (Json.num 2))
          "step2_data" step2_result) "step1_confirmed" (Json.bool true)) k
          = getKey rg k := by
      intro k h1 h2 h3
      rw [getKey_setKey_ne _ _ _ _ h3, getKey_setKey_ne _ _ _ _ h2,
        getKey_setKey_ne _ _ _ _ h1]
    have hg1s : getKey (setKey (setKey (setKey rg "step" (Json.num 2))
        "step2_data" step2_result) "step1_confirmed" (Json.bool true)) "step"
        = some (Json.num 2) := by
      rw [getKey_setKey_ne _ _ _ _ (by decide), getKey_setKey_ne _ _ _ _ (by decide),
        getKey_setKey_self]
    have hg1d : getKey (setKey (setKey (setKey rg "step" (Json.num 2))
        "step2_data" step2_result) "step1_confirmed" (Json.bool true)) "step2_data"
        = some step2_result := by
      rw [getKey_setKey_ne _ _ _ _ (by decide), getKey_setKey_self]
    have hg1c : getKey (setKey (setKey (setKey rg "step" (Json.num 2))
        "step2_data" step2_result) "step1_confirmed" (Json.bool true))
        "step1_confirmed" = some (Json.bool true) := getKey_setKey_self _ _ _
    have hg1i : getKey (setKey (setKey (setKey rg "step" (Json.num 2))
        "step2_data" step2_result) "step1_confirmed" (Json.bool true)) "iterations"
        = getKey rg "iterations" := hstep "iterations" (by decide) (by decide) (by decide)
    have hil : iterationsList (setKey (setKey (setKey rg "step" (Json.num 2))
        "step2_data" step2_result) "step1_confirmed" (Json.bool true))
        = iterationsList rg := by rw [iterationsList, iterationsList, hg1i]
    have hik : hasKey (setKey (setKey (setKey rg "step" (Json.num 2))
        "step2_data" step2_result) "step1_confirmed" (Json.bool true)) "iterations"
        = hasKey rg "iterations" := by rw [hasKey, hasKey, hg1i]
    have hidq : currentIdxQ (setKey (setKey (setKey rg "step" (Json.num 2))
        "step2_data" step2_result) "step1_confirmed" (Json.bool true))
        = currentIdxQ rg := by
      rw [currentIdxQ, currentIdxQ,
        hstep "current_iteration" (by decide) (by decide) (by decide)]
    have hvx : validCurrentIdx (setKey (setKey (setKey rg "step" (Json.num 2))
        "step2_data" step2_result) "step1_confirmed" (Json.bool true))
        = validCurrentIdx rg := by
      rw [validCurrentIdx, validCurrentIdx, hidq, hil]
    have hidn : currentIdxNat (setKey (setKey (setKey rg "step" (Json.num 2))
        "step2_data" step2_result) "step1_confirmed" (Json.bool true))
        = currentIdxNat rg := by rw [currentIdxNat, currentIdxNat, hidq]
    rw [record_step2_result, hrg]
    simp only [hne, Bool.false_eq_true, if_false]
    by_cases hguard : hasKey rg "iterations" = true ∧ 0 < (iterationsList rg).length
    · have hguard1 : hasKey (setKey (setKey (setKey rg "step" (Json.num 2))
          "step2_data" step2_result) "step1_confirmed" (Json.bool true))
          "iterations" = true ∧ 0 < (iterationsList (setKey (setKey (setKey rg
          "step" (Json.num 2)) "step2_data" step2_result) "step1_confirmed"
          (Json.bool true))).length := by
        rw [hik, hil]; exact hguard
      rw [if_pos hguard1]
      by_cases hval : validCurrentIdx rg = true
      · have hval1 : validCurrentIdx (setKey (setKey (setKey rg "step"
            (Json.num 2)) "step2_data" step2_result) "step1_confirmed"
            (Json.bool true)) = true := by rw [hvx]; exact hval
        rw [if_pos hval1]
        refine ⟨_, rfl, ?_, ?_, ?_, ?_, ?_⟩
        · rw [getKey_setKey_ne _ _ _ _ (by decide), hg1s]
        · rw [getKey_setKey_ne _ _ _ _ (by decide), hg1d]
        · rw [getKey_setKey_ne _ _ _ _ (by decide), hg1c]
        · intro k h1 h2 h3 h4
          rw [getKey_setKey_ne _ _ _ _ h4, hstep k h1 h2 h3]
        · intro _ _ f0 hf0
          refine ⟨setKey (setKey (setKey f0 "step" (Json.num 2)) "step2_data"
              step2_result) "metadata" (Json.obj (setKey (setKey
              (objD (getKey (setKey (setKey f0 "step" (Json.num 2)) "step2_data"
                step2_result) "metadata")) "confirmed_dish_name"
              (Json.str dish_name)) "confirmed_components" components)),
            setKey (setKey (objD (getKey (setKey (setKey f0 "step" (Json.num 2))
              "step2_data" step2_result) "metadata")) "confirmed_dish_name"
              (Json.str dish_name)) "confirmed_components" components,
            ?_, ?_, ?_, getKey_setKey_self _ _ _, ?_, getKey_setKey_self _ _ _⟩
          · rw [iterationsList, getKey_setKey_self, arrD, hidn, hil,
              listModify_get_self, hf0]
            show some (mirrorStep2IntoIteration step2_result dish_name components
              (Json.obj f0)) = _
            rw [mirrorStep2IntoIteration]
          · rw [getKey_setKey_ne _ _ _ _ (by decide),
              getKey_setKey_ne _ _ _ _ (by decide), getKey_setKey_self]
          · rw [getKey_setKey_ne _ _ _ _ (by decide), getKey_setKey_self]
          · rw [getKey_setKey_ne _ _ _ _ (by decide), getKey_setKey_self]
      · have hval1 : validCurrentIdx (setKey (setKey (setKey rg "step"
            (Json.num 2)) "step2_data" step2_result) "step1_confirmed"
            (Json.bool true)) = false := by
          rw [hvx]
          cases hvv : validCurrentIdx rg with
          | false => rfl
          | true => exact absurd hvv hval
        rw [hval1]
        simp only [Bool.false_eq_true, if_false]
        refine ⟨_, rfl, hg1s, hg1d, hg1c,
          fun k h1 h2 h3 _ => hstep k h1 h2 h3, ?_⟩
        intro _ hcontra
        exact absurd hcontra hval
    · rw [if_neg (by rw [hik, hil]; exact hguard)]
      refine ⟨_, rfl, hg1s, hg1d, hg1c,
        fun k h1 h2 h3 _ => hstep k h1 h2 h3, ?_⟩
      intro hcontra
      exact absurd hcontra hguard

/-- Witness for C5: a record carrying a step-1 payload with one
iteration. -/
def demoStep1Record : DishImageQuery :=
  { id := 7, user_id := 1, image_url := some "/images/x.jpg",
    result_gemini := some
      [("step", Json.num 1),
       ("step1_data", Json.obj [("components", Json.arr [])]),
       ("step2_data", Json.null),
       ("step1_confirmed", Json.bool false),
       ("iterations", Json.arr
         [Json.obj [("iteration_number", Json.num 1),
            ("step", Json.num 1),
            ("metadata", Json.obj [])]]),
       ("current_iteration", Json.num 1)],
    dish_position := some 1, created_at := none, target_date := none }

theorem record_step2_result_spec_witness :
    ∃ rg' : JObj,
      record_step2_result (some demoStep1Record)
          (Json.obj [("dish_name", Json.str "Chicken Rice"),
            ("calories_kcal", Json.num 500)])
          "Chicken Rice" (Json.arr []) = some rg'
      ∧ getKey rg' "step" = some (Json.num 2)
      ∧ getKey rg' "step2_data" = some (Json.obj
          [("dish_name", Json.str "Chicken Rice"),
           ("calories_kcal", Json.num 500)])
      ∧ getKey rg' "step1_confirmed" = some (Json.bool true)
      ∧ (∀ k, k ≠ "step" → k ≠ "step2_data" → k ≠ "step1_confirmed" →
          k ≠ "iterations" →
          getKey rg' k = getKey ((demoStep1Record.result_gemini).getD []) k)
      ∧ ((hasKey ((demoStep1Record.result_gemini).getD []) "iterations" = true
            ∧ 0 < (iterationsList ((demoStep1Record.result_gemini).getD [])).length) →
          validCurrentIdx ((demoStep1Record.result_gemini).getD []) = true →
          ∀ f0 : JObj,
            (iterationsList ((demoStep1Record.result_gemini).getD []))[currentIdxNat
              ((demoStep1Record.result_gemini).getD [])]? = some (Json.obj f0) →
          ∃ f1 m1 : JObj,
            (iterationsList rg')[currentIdxNat
              ((demoStep1Record.result_gemini).getD [])]? = some (Json.obj f1)
            ∧ getKey f1 "step" = some (Json.num 2)
            ∧ getKey f1 "step2_data" = some (Json.obj
                [("dish_name", Json.str "Chicken Rice"),
                 ("calories_kcal", Json.num 500)])
            ∧ getKey f1 "metadata" = some (Json.obj m1)
            ∧ getKey m1 "confirmed_dish_name" = some (Json.str "Chicken Rice")
            ∧ getKey m1 "confirmed_components" = some (Json.arr [])) :=
  (record_step2_result_spec (some demoStep1Record)
      (Json.obj [("dish_name", Json.str "Chicken Rice"),
        ("calories_kcal", Json.num 500)])
      "Chicken Rice" (Json.arr [])).2.2.2
    demoStep1Record ((demoStep1Record.result_gemini).getD [])
    rfl rfl rfl

/-! ### Claim C4 -/

/-- C4: the (spec-modelled) `confirm_step1` operation: for every payload
with `step == 1` it persists `step1_confirmed = true` together with
top-level `confirmed_dish_name` and `confirmed_components` while leaving
`step2_data` (still null) and `step` untouched — the optimistic update a
reader sees before the step-2 background call completes — and it rejects
the request with a caller-visible error when the payload is absent or
`step != 1`. -/
theorem confirm_step1_spec (rg : JObj) (dish : String) (components : Json) :
    (stepIs1 rg = true →
      ∃ rg' : JObj, confirm_step1 (some rg) dish components = Except.ok rg'
        ∧ getKey rg' "step1_confirmed" = some (Json.bool true)
        ∧ getKey rg' "confirmed_dish_name" = some (Json.str dish)
        ∧ getKey rg' "confirmed_components" = some components
        ∧ getKey rg' "step2_data" = getKey rg "step2_data"
        ∧ getKey rg' "step" = getKey rg "step")
    ∧ (stepIs1 rg = false →
        ∃ e, confirm_step1 (some rg) dish components = Except.error e)
    ∧ (∃ e, confirm_step1 none dish components = Except.error e) := by
  refine ⟨?_, ?_, ⟨"payload absent", rfl⟩⟩
  · intro h1
    rw [confirm_step1, h1]
    refine ⟨_, rfl, ?_, ?_, ?_, ?_, ?_⟩
    · rw [getKey_setKey_ne _ _ _ _ (by decide),
        getKey_setKey_ne _ _ _ _ (by decide), getKey_setKey_self]
    · rw [getKey_setKey_ne _ _ _ _ (by decide), getKey_setKey_self]
    · rw [getKey_setKey_self]
    · rw [getKey_setKey_ne _ _ _ _ (by decide),
        getKey_setKey_ne _ _ _ _ (by decide),
        getKey_setKey_ne _ _ _ _ (by decide)]
    · rw [getKey_setKey_ne _ _ _ _ (by decide),
        getKey_setKey_ne _ _ _ _ (by decide),
        getKey_setKey_ne _ _ _ _ (by decide)]
  · intro h0
    rw [confirm_step1, h0]
    exact ⟨_, rfl⟩

/-- Witness for C4: confirming a step-1 payload whose `step2_data` is
still null, and rejection on a step-2 payload and on an absent payload. -/
theorem confirm_step1_spec_witness :
    (∃ rg' : JObj,
      confirm_step1 (some [("step", Json.num 1), ("step2_data", Json.null)])
          "Chicken Rice" (Json.arr []) = Except.ok rg'
        ∧ getKey rg' "step1_confirmed" = some (Json.bool true)
        ∧ getKey rg' "confirmed_dish_name" = some (Json.str "Chicken Rice")
        ∧ getKey rg' "confirmed_components" = some (Json.arr [])
        ∧ getKey rg' "step2_data"
          = getKey [("step", Json.num 1), ("step2_data", Json.null)] "step2_data"
        ∧ getKey rg' "step"
          = getKey [("step", Json.num 1), ("step2_data", Json.null)] "step")
    ∧ (∃ e, confirm_step1 (some [("step", Json.num 2)]) "Chicken Rice"
        (Json.arr []) = Except.error e) :=
  ⟨(confirm_step1_spec [("step", Json.num 1), ("step2_data", Json.null)]
      "Chicken Rice" (Json.arr [])).1 (by norm_num [stepIs1, getKey]),
   (confirm_step1_spec [("step", Json.num 2)] "Chicken Rice" (Json.arr [])).2.1
      (by norm_num [stepIs1, getKey])⟩

/-! ### Claim C6 -/

/-- Counterexample to C6 as stated: `number_of_servings = 0.01` is
accepted by the component-confirmation boundary (`ge=0.01`) but rejected
by the metadata-update boundary (`ge=0.1`), so the accepted domain is not
`[0.01, 10.0]` at *every* validation boundary. -/
theorem servings_bounds_differ_cex :
    componentConfirmationServingsValid 0.01 = true
    ∧ metadataUpdateServingsValid 0.01 = false := by
  constructor
  · norm_num [componentConfirmationServingsValid]
  · norm_num [metadataUpdateServingsValid]

/-- C6 (amended): the component-confirmation boundary
(`ComponentConfirmation.number_of_servings`) accepts exactly
`[0.01, 10.0]` — `0.01` accepted, `0.0` and `10.01` rejected — while the
metadata-update boundary (`MetadataUpdate.number_of_servings`) accepts
exactly `[0.1, 10.0]`, so `0.01` is rejected there; `0.0` and `10.01` are
rejected at both boundaries. -/
theorem number_of_servings_validation_bounds :
    (∀ ns : ℚ, componentConfirmationServingsValid ns = true
      ↔ (0.01 ≤ ns ∧ ns ≤ 10))
    ∧ (∀ ns : ℚ, metadataUpdateServingsValid ns = true
      ↔ (0.1 ≤ ns ∧ ns ≤ 10))
    ∧ componentConfirmationServingsValid 0.01 = true
    ∧ componentConfirmationServingsValid 0 = false
    ∧ componentConfirmationServingsValid 10.01 = false
    ∧ metadataUpdateServingsValid 0.1 = true
    ∧ metadataUpdateServingsValid 0 = false
    ∧ metadataUpdateServingsValid 10.01 = false := by
  refine ⟨?_, ?_, ?_, ?_, ?_, ?_, ?_, ?_⟩
  · intro ns
    norm_num [componentConfirmationServingsValid]
  · intro ns
    norm_num [metadataUpdateServingsValid]
  · norm_num [componentConfirmationServingsValid]
  · norm_num [componentConfirmationServingsValid]
  · norm_num [componentConfirmationServingsValid]
  · norm_num [metadataUpdateServingsValid]
  · norm_num [metadataUpdateServingsValid]
  · norm_num [metadataUpdateServingsValid]

/-- Witness for C6 (amended): values accepted through the two iffs. -/
theorem number_of_servings_validation_bounds_witness :
    componentConfirmationServingsValid 0.5 = true
    ∧ metadataUpdateServingsValid 5 = true :=
  ⟨(number_of_servings_validation_bounds.1 0.5).mpr (by norm_num),
   (number_of_servings_validation_bounds.2.1 5).mpr (by norm_num)⟩

/-! ### Claim C7 -/

theorem keyLe_trans (a b c : Nat × Nat × Nat × Int × Int)
    (h1 : keyLe a b = true) (h2 : keyLe b c = true) : keyLe a c = true := by
  simp only [keyLe, Bool.or_eq_true, Bool.and_eq_true, decide_eq_true_eq] at *
  omega

theorem keyLe_total (a b : Nat × Nat × Nat × Int × Int) :
    (keyLe a b || keyLe b a) = true := by
  simp only [keyLe, Bool.or_eq_true, Bool.and_eq_true, decide_eq_true_eq]
  omega

/-- C7: `get_dish_image_queries_by_user_and_date` returns exactly the
rows matching the per-record predicate — `(target_date is not null and
its date-part equals the query date) or (target_date is null and
created_at's date-part equals the query date)` for the given user —
ordered by `dish_position` ascending with nulls last then `created_at`
descending; in particular a row whose non-null `target_date` does not
match the date is excluded even when its `created_at` date-part
matches. -/
theorem records_for_day_spec (db : List DishImageQuery) (user_id : Nat)
    (query_date : Int) :
    (∀ q, q ∈ get_dish_image_queries_by_user_and_date db user_id query_date
      ↔ (q ∈ db ∧ matchesUserAndDate user_id query_date q = true))
    ∧ List.Pairwise (fun a b => queryOrder a b = true)
        (get_dish_image_queries_by_user_and_date db user_id query_date)
    ∧ (∀ q t, q.target_date = some t → t.day ≠ query_date →
        q ∉ get_dish_image_queries_by_user_and_date db user_id query_date) := by
  have hmem : ∀ q,
      q ∈ get_dish_image_queries_by_user_and_date db user_id query_date
      ↔ (q ∈ db ∧ matchesUserAndDate user_id query_date q = true) := by
    intro q
    rw [get_dish_image_queries_by_user_and_date, List.mem_mergeSort,
      List.mem_filter]
  refine ⟨hmem, ?_, ?_⟩
  · rw [get_dish_image_queries_by_user_and_date]
    exact List.sorted_mergeSort
      (fun a b c h1 h2 => keyLe_trans (orderKey a) (orderKey b) (orderKey c) h1 h2)
      (fun a b => keyLe_total (orderKey a) (orderKey b))
      (db.filter (matchesUserAndDate user_id query_date))
  · intro q t hqt hne hmemq
    have hmatch := ((hmem q).mp hmemq).2
    rw [matchesUserAndDate, hqt] at hmatch
    simp [dateIs] at hmatch
    exact hne hmatch.2

/-- A row whose `target_date` (day 5) differs from its upload day
(`created_at` day 6). -/
def recTargeted : DishImageQuery :=
  { id := 1, user_id := 1, image_url := none, result_gemini := none,
    dish_position := some 1, created_at := some ⟨6, 0⟩,
    target_date := some ⟨5, 0⟩ }

/-- A row with no `target_date`, uploaded on day 6. -/
def recUntargeted : DishImageQuery :=
  { id := 2, user_id := 1, image_url := none, result_gemini := none,
    dish_position := some 2, created_at := some ⟨6, 0⟩,
    target_date := none }

/-- Witness for C7: the spec's date-fallback scenario — the targeted row
appears under day 5 and not under day 6 although it was created on day 6;
the untargeted row appears under day 6. -/
theorem records_for_day_spec_witness :
    recTargeted ∈ get_dish_image_queries_by_user_and_date
      [recTargeted, recUntargeted] 1 5
    ∧ recTargeted ∉ get_dish_image_queries_by_user_and_date
      [recTargeted, recUntargeted] 1 6
    ∧ recUntargeted ∈ get_dish_image_queries_by_user_and_date
      [recTargeted, recUntargeted] 1 6 :=
  ⟨((records_for_day_spec [recTargeted, recUntargeted] 1 5).1 recTargeted).mpr
      ⟨by simp, by decide⟩,
   (records_for_day_spec [recTargeted, recUntargeted] 1 6).2.2 recTargeted
      ⟨5, 0⟩ rfl (by decide),
   ((records_for_day_spec [recTargeted, recUntargeted] 1 6).1 recUntargeted).mpr
      ⟨by simp, by decide⟩⟩

end DishProd
